import Mathlib

/-!
Verification of the blob-localization / point-set-registration core of the
`holographic_stimulation_accuracy` repository (`src/image_processing.py`),
as a shallow embedding in Lean 4.

Conventions of the embedding:
* Python/numpy floating-point scalars are modelled as exact rationals `ℚ`
  (the spec's properties are stated "in real arithmetic, within floating
  tolerance numerically"; we prove the exact-arithmetic statements).
* Python `int(x)` applied to a nonnegative-or-negative float quotient
  truncates toward zero; this is `Int.tdiv` on exact integers.
* Point sets are ordered lists; a 2-D point is a pair `ℚ × ℚ` where the
  rotation algebra matters, and a general row is `List ℚ` where the code is
  dimension-agnostic (`np.hstack`).
* External library routines (skimage thresholding/labelling, scipy's
  L-BFGS-B minimizer) are modelled as oracle parameters; the embedding
  mirrors exactly how the repository's own code branches on their results.
* A Python function that can `raise` is embedded with result type
  `Except PyErr _`; a function whose body contains no raise and no
  fallible call is embedded as a total function.
-/

/-- A Python exception, as surfaced by the repository's code or by the
libraries it calls.  `valueError` carries a message the repository's own
code constructs.  The three `sklearn…` constructors are the `ValueError`s
raised by scikit-learn's input validation inside `mean_squared_error`
(`check_consistent_length`, then `check_array` on each argument); their
exact message texts vary across library versions, so they are kept as
structured constructors: `sklearnInconsistentSamples` for mismatched
sample counts, `sklearnZeroSamples` for an empty array, and
`sklearnNonFiniteInput` for NaN/inf entries ("Input contains NaN"). -/
inductive PyErr where
  | valueError (msg : String)
  | sklearnInconsistentSamples
  | sklearnZeroSamples
  | sklearnNonFiniteInput
deriving DecidableEq, Repr

/-! ## `add_z` (src/image_processing.py lines 46-67)

```python
def add_z(points, z_spacing, z_size):
    number_of_blobs = points.shape[0]
    middle_index = int((z_size - 1) / 2)
    z_half_range = int((number_of_blobs - 1) / 2 * z_spacing)
    indices = np.zeros(number_of_blobs, dtype=int)
    for ii in range(number_of_blobs):
        indices[ii] = middle_index + z_half_range - ii * z_spacing
    return np.hstack((indices.reshape(-1, 1), points))
```

`int((z_size - 1) / 2)` is float true division followed by truncation
toward zero, i.e. `Int.tdiv (z_size - 1) 2`; likewise
`int((number_of_blobs - 1) / 2 * z_spacing)` truncates the exact product
`(n - 1) * z_spacing / 2`, i.e. `Int.tdiv ((n - 1) * z_spacing) 2`. -/

/-- `middle_index` of `add_z`: `int((z_size - 1) / 2)`. -/
def middle_index (z_size : ℤ) : ℤ := Int.tdiv (z_size - 1) 2

/-- `z_half_range` of `add_z`: `int((number_of_blobs - 1) / 2 * z_spacing)`. -/
def z_half_range (number_of_blobs z_spacing : ℤ) : ℤ :=
  Int.tdiv ((number_of_blobs - 1) * z_spacing) 2

/-- The z-index written by the loop body of `add_z` at position `ii`:
`middle_index + z_half_range - ii * z_spacing`. -/
def z_index (number_of_blobs z_spacing z_size ii : ℤ) : ℤ :=
  middle_index z_size + z_half_range number_of_blobs z_spacing - ii * z_spacing

/-- `add_z`: prepend a z-column to each row of `points`.  Rows are kept as
`List ℚ` because `np.hstack` is dimension-agnostic; the integer z-index is
cast to `ℚ` as numpy promotes the integer column to the float dtype of
`points`. -/
def add_z (points : List (List ℚ)) (z_spacing z_size : ℤ) : List (List ℚ) :=
  let number_of_blobs : ℤ := points.length
  let indices : List ℤ :=
    (List.range points.length).map
      (fun ii : ℕ => z_index number_of_blobs z_spacing z_size (ii : ℤ))
  (indices.zip points).map (fun zp => ((zp.1 : ℚ)) :: zp.2)

/-- Claim C2's formula, modelled from the spec's words: z-index
`floor((depth−1)/2) + floor((n−1)/2)·spacing − i·spacing`, "where the floor
of (n−1)/2 is taken before multiplying by spacing".  (`Int.ediv` is floor
division; all the quantities the spec floors are nonnegative in use.) -/
def z_index_claimed (n spacing depth i : ℤ) : ℤ :=
  Int.ediv (depth - 1) 2 + Int.ediv (n - 1) 2 * spacing - i * spacing

-- basic shape lemmas for add_z

theorem add_z_length (points : List (List ℚ)) (z_spacing z_size : ℤ) :
    (add_z points z_spacing z_size).length = points.length := by
  unfold add_z
  rw [List.length_map, List.length_zip, List.length_map, List.length_range,
    min_self]

theorem add_z_get (points : List (List ℚ)) (z_spacing z_size : ℤ)
    (i : ℕ) (h : i < points.length)
    (h' : i < (add_z points z_spacing z_size).length) :
    (add_z points z_spacing z_size).get ⟨i, h'⟩ =
      ((z_index points.length z_spacing z_size i : ℤ) : ℚ) ::
        points.get ⟨i, h⟩ := by
  unfold add_z
  simp only [List.get_eq_getElem, List.getElem_map, List.getElem_zip,
    List.getElem_range]

/-- C2 (corrected): at `n = 2` points, `spacing = 3`, `depth = 5`, the code
gives z-index `3` for the first point (`int((2−1)/2·3) = int(1.5) = 1`,
so `2 + 1 − 0`), while the spec's formula gives `2` (`floor((2−1)/2)·3 =
0·3 = 0`, so `2 + 0 − 0`): the floor is applied to the product, not to
`(n−1)/2` alone. -/
theorem add_z_formula_counterexample :
    z_index 2 3 5 0 = 3 ∧
      z_index_claimed 2 3 5 0 = 2 ∧
      (add_z [[0, 0], [1, 1]] 3 5).get
          ⟨0, by rw [add_z_length]; decide⟩ =
        [((3 : ℤ) : ℚ), 0, 0] := by
  refine ⟨by decide, by decide, ?_⟩
  rw [add_z_get _ _ _ 0 (by decide) _]
  have hz : z_index (([[0, 0], [1, 1]] : List (List ℚ)).length) 3 5
      (((0 : ℕ) : ℤ)) = 3 := by decide
  rw [hz]
  norm_num

/-- C2 (amended): for every point set, spacing and depth, `add_z` assigns
the `i`-th point (0-indexed) the z-index
`trunc((depth−1)/2) + trunc((n−1)·spacing/2) − i·spacing`, where `trunc`
is truncation toward zero and the truncation is applied to the product
`(n−1)/2 · spacing` after multiplying by the spacing. -/
theorem add_z_assigns_z_index (points : List (List ℚ)) (z_spacing z_size : ℤ)
    (i : ℕ) (h : i < (add_z points z_spacing z_size).length) :
    (add_z points z_spacing z_size).get ⟨i, h⟩ =
      ((Int.tdiv (z_size - 1) 2 +
          Int.tdiv ((points.length - 1) * z_spacing) 2 -
          i * z_spacing : ℤ) : ℚ) ::
        points.get ⟨i, by simpa [add_z_length] using h⟩ := by
  have h0 : i < points.length := by simpa [add_z_length] using h
  rw [add_z_get points z_spacing z_size i h0 h]
  rfl

/-- Witness for `add_z_assigns_z_index` at a concrete input. -/
theorem add_z_assigns_z_index_witness :
    (add_z [[5, 7], [1, 1], [2, 4]] 2 9).get ⟨1, by decide⟩ =
      ((Int.tdiv ((9 : ℤ) - 1) 2 +
          Int.tdiv ((([[5, 7], [1, 1], [2, 4]] : List (List ℚ)).length - 1) * 2) 2 -
          1 * 2 : ℤ) : ℚ) ::
        ([[5, 7], [1, 1], [2, 4]] : List (List ℚ)).get ⟨1, by decide⟩ :=
  add_z_assigns_z_index [[5, 7], [1, 1], [2, 4]] 2 9 1 (by decide)

-- z_half_range doubles back to the exact product when the product is even

theorem two_mul_z_half_range_of_even (n s : ℤ) (h : ((n - 1) * s) % 2 = 0) :
    2 * z_half_range n s = (n - 1) * s := by
  obtain ⟨k, hk⟩ := Int.dvd_of_emod_eq_zero h
  rw [z_half_range, hk, Int.mul_tdiv_cancel_left _ (by decide)]

/-- C7 (counterexample): with 2 points, spacing 1 and odd depth 5 the two
z-indices are `2` and `1`, while the mid-depth index is `2`: the pair
`(i, n−1−i) = (0, 1)` is at distances `0` and `1` from the mid-depth index,
so the z-indices are not symmetric around it. -/
theorem add_z_symmetry_counterexample :
    (add_z [[0, 0], [1, 1]] 1 5).get ⟨0, by rw [add_z_length]; decide⟩ =
        [((2 : ℤ) : ℚ), 0, 0] ∧
      (add_z [[0, 0], [1, 1]] 1 5).get ⟨1, by rw [add_z_length]; decide⟩ =
        [((1 : ℤ) : ℚ), 1, 1] ∧
      middle_index 5 = 2 ∧
      ((2 : ℤ) - middle_index 5).natAbs ≠ ((1 : ℤ) - middle_index 5).natAbs := by
  refine ⟨?_, ?_, by decide, by decide⟩
  · rw [add_z_get _ _ _ 0 (by decide) _]
    have hz : z_index (([[0, 0], [1, 1]] : List (List ℚ)).length) 1 5
        (((0 : ℕ) : ℤ)) = 2 := by decide
    rw [hz]; norm_num
  · rw [add_z_get _ _ _ 1 (by decide) _]
    have hz : z_index (([[0, 0], [1, 1]] : List (List ℚ)).length) 1 5
        (((1 : ℕ) : ℤ)) = 1 := by decide
    rw [hz]; norm_num

/-- C7 (amended): for odd depth, the z-indices produced by `add_z` are
symmetric around the mid-depth index `middle_index depth` provided
`(n−1)·spacing` is even (in particular whenever the point count `n` is odd
or the spacing is even): the z-indices of the pair `(i, n−1−i)` are
equidistant from the mid-depth index.  For even `n` and odd spacing the
truncation in `z_half_range` shifts the pattern and breaks the symmetry by
one index. -/
theorem add_z_z_indices_symmetric (points : List (List ℚ)) (spacing depth : ℤ)
    (i : ℕ) (hi : i < points.length)
    (hodd : depth % 2 = 1)
    (heven : (((points.length : ℤ) - 1) * spacing) % 2 = 0) :
    |((add_z points spacing depth).get
        ⟨i, by rw [add_z_length]; exact hi⟩).headI -
      ((middle_index depth : ℤ) : ℚ)| =
    |((add_z points spacing depth).get
        ⟨points.length - 1 - i, by rw [add_z_length]; omega⟩).headI -
      ((middle_index depth : ℤ) : ℚ)| := by
  rw [add_z_get _ _ _ i hi _, add_z_get _ _ _ (points.length - 1 - i) (by omega) _]
  have hcast : ((points.length - 1 - i : ℕ) : ℤ) = (points.length : ℤ) - 1 - i := by
    omega
  have key : z_index points.length spacing depth i +
      z_index points.length spacing depth ((points.length - 1 - i : ℕ) : ℤ) =
      2 * middle_index depth := by
    rw [hcast]
    unfold z_index
    linear_combination two_mul_z_half_range_of_even (points.length : ℤ)
      spacing heven
  have hneg : z_index points.length spacing depth i - middle_index depth =
      -(z_index points.length spacing depth ((points.length - 1 - i : ℕ) : ℤ) -
        middle_index depth) := by omega
  simp only [List.headI]
  rw [← Int.cast_sub, ← Int.cast_sub, hneg, Int.cast_neg, abs_neg]

/-- Witness for `add_z_z_indices_symmetric`: 3 points, spacing 1, depth 5. -/
theorem add_z_z_indices_symmetric_witness :
    |((add_z [[0, 0], [1, 1], [2, 2]] 1 5).get
        ⟨0, by rw [add_z_length]; decide⟩).headI -
      ((middle_index 5 : ℤ) : ℚ)| =
    |((add_z [[0, 0], [1, 1], [2, 2]] 1 5).get
        ⟨([[0, 0], [1, 1], [2, 2]] : List (List ℚ)).length - 1 - 0,
          by rw [add_z_length]; decide⟩).headI -
      ((middle_index 5 : ℤ) : ℚ)| :=
  add_z_z_indices_symmetric [[0, 0], [1, 1], [2, 2]] 1 5 0 (by decide)
    (by decide) (by decide)

/-- C10: `add_z` leaves the original coordinates unchanged: the output has
as many rows as the input, row `i` is the input row with the single integer
z-index prepended as a new first coordinate, so each output row has exactly
one more column than the input row and its tail equals the input row
exactly. -/
theorem add_z_preserves_input_rows (points : List (List ℚ))
    (z_spacing z_size : ℤ) (i : ℕ) (h : i < points.length) :
    (add_z points z_spacing z_size).length = points.length ∧
      (add_z points z_spacing z_size).get ⟨i, by rw [add_z_length]; exact h⟩ =
        ((z_index points.length z_spacing z_size i : ℤ) : ℚ) ::
          points.get ⟨i, h⟩ ∧
      ((add_z points z_spacing z_size).get
          ⟨i, by rw [add_z_length]; exact h⟩).length =
        (points.get ⟨i, h⟩).length + 1 ∧
      ((add_z points z_spacing z_size).get
          ⟨i, by rw [add_z_length]; exact h⟩).tail = points.get ⟨i, h⟩ := by
  have hg := add_z_get points z_spacing z_size i h (by rw [add_z_length]; exact h)
  refine ⟨add_z_length points z_spacing z_size, hg, by rw [hg]; rfl, ?_⟩
  rw [hg]
  rfl

/-- Witness for `add_z_preserves_input_rows` at a concrete input. -/
theorem add_z_preserves_input_rows_witness :
    (add_z [[1, 2]] 1 3).length = ([[1, 2]] : List (List ℚ)).length ∧
      (add_z [[1, 2]] 1 3).get ⟨0, by rw [add_z_length]; decide⟩ =
        ((z_index ([[1, 2]] : List (List ℚ)).length 1 3 0 : ℤ) : ℚ) ::
          ([[1, 2]] : List (List ℚ)).get ⟨0, by decide⟩ ∧
      ((add_z [[1, 2]] 1 3).get ⟨0, by rw [add_z_length]; decide⟩).length =
        (([[1, 2]] : List (List ℚ)).get ⟨0, by decide⟩).length + 1 ∧
      ((add_z [[1, 2]] 1 3).get ⟨0, by rw [add_z_length]; decide⟩).tail =
        ([[1, 2]] : List (List ℚ)).get ⟨0, by decide⟩ :=
  add_z_preserves_input_rows [[1, 2]] 1 3 0 (by decide)

/-! ## `find_closest_regions` (src/image_processing.py lines 137-160)

```python
def find_closest_regions(napari_points, auto_points):
    used_indices = set()
    ordered_points = []
    for point in napari_points:
        available_points = np.array([pt for ii, pt in enumerate(auto_points)
                                     if ii not in used_indices])
        tree = cKDTree(available_points)
        _, closest_idx = tree.query(point)
        closest_global_idx = [ii for ii in range(len(auto_points))
                              if ii not in used_indices][closest_idx]
        ordered_points.append(auto_points[closest_global_idx])
        used_indices.add(closest_global_idx)
    return np.array(ordered_points)
```

The pool of still-available candidates is carried as a list of
(original index, point) pairs, in increasing original-index order exactly
as the source's comprehension rebuilds it; removing a consumed index is a
filter on the first component.  `cKDTree` on an empty pool raises (a
`ValueError` from its constructor), modelled as `none`; on a nonempty pool
`tree.query(point)` returns a candidate minimizing Euclidean distance,
modelled by `query_closest` (squared distances order identically and stay
in `ℚ`; cKDTree's tie-break among exactly equidistant candidates is
unspecified, first-minimum is the canonical deterministic choice and every
property proved below depends only on minimality). -/

/-- A point of arbitrary dimension, one coordinate row of a numpy array. -/
abbrev Pt := List ℚ

/-- Squared Euclidean distance between two coordinate rows. -/
def sq_dist (p q : Pt) : ℚ := ((p.zip q).map (fun c => (c.1 - c.2) ^ 2)).sum

/-- One comparison step of the nearest-candidate search. -/
def closer (p : Pt) (best y : ℕ × Pt) : ℕ × Pt :=
  if sq_dist p y.2 < sq_dist p best.2 then y else best

/-- `tree.query(point)`: nearest candidate in the pool, `none` on an empty
pool (where `cKDTree` raises). -/
def query_closest (p : Pt) : List (ℕ × Pt) → Option (ℕ × Pt)
  | [] => none
  | x :: xs => some (xs.foldl (closer p) x)

/-- The loop of `find_closest_regions`, with the pool of still-available
`(original index, point)` pairs made explicit. -/
def find_closest_aux (refs : List Pt) (avail : List (ℕ × Pt)) :
    Option (List (ℕ × Pt)) :=
  match refs with
  | [] => some []
  | r :: rs =>
    match query_closest r avail with
    | none => none
    | some c =>
      match find_closest_aux rs (avail.filter (fun x => x.1 ≠ c.1)) with
      | none => none
      | some rest => some (c :: rest)

/-- `find_closest_regions`: `none` models the exception raised when the
candidate pool is exhausted. -/
def find_closest_regions (napari_points auto_points : List Pt) :
    Option (List Pt) :=
  (find_closest_aux napari_points auto_points.enum).map (List.map Prod.snd)

/-- The matching policy the spec claims: the `i`-th output is a candidate
nearest in Euclidean distance to the `i`-th reference point among the
candidates not consumed by the earlier outputs. -/
inductive GreedyMatch : List Pt → List (ℕ × Pt) → List (ℕ × Pt) → Prop where
  | nil (avail : List (ℕ × Pt)) : GreedyMatch [] avail []
  | cons (r : Pt) (rs : List Pt) (avail : List (ℕ × Pt)) (c : ℕ × Pt)
      (sel : List (ℕ × Pt))
      (hmem : c ∈ avail)
      (hmin : ∀ y ∈ avail, sq_dist r c.2 ≤ sq_dist r y.2)
      (hrest : GreedyMatch rs (avail.filter (fun x => x.1 ≠ c.1)) sel) :
      GreedyMatch (r :: rs) avail (c :: sel)

-- the nearest-candidate search returns a member attaining the minimum

theorem closer_mem (p : Pt) (b y : ℕ × Pt) :
    closer p b y = b ∨ closer p b y = y := by
  unfold closer; split
  · exact Or.inr rfl
  · exact Or.inl rfl

theorem closer_le_left (p : Pt) (b y : ℕ × Pt) :
    sq_dist p (closer p b y).2 ≤ sq_dist p b.2 := by
  unfold closer; split
  · exact le_of_lt (by assumption)
  · exact le_refl _

theorem closer_le_right (p : Pt) (b y : ℕ × Pt) :
    sq_dist p (closer p b y).2 ≤ sq_dist p y.2 := by
  unfold closer; split
  · exact le_refl _
  · exact le_of_not_lt (by assumption)

theorem foldl_closer_mem (p : Pt) :
    ∀ (xs : List (ℕ × Pt)) (x : ℕ × Pt), xs.foldl (closer p) x ∈ x :: xs := by
  intro xs
  induction xs with
  | nil => intro x; simp
  | cons z zs ih =>
    intro x
    simp only [List.foldl_cons]
    rcases closer_mem p x z with h | h <;> rw [h]
    · rcases List.mem_cons.mp (ih x) with h1 | h1
      · rw [h1]; exact List.mem_cons_self _ _
      · exact List.mem_cons_of_mem _ (List.mem_cons_of_mem _ h1)
    · exact List.mem_cons_of_mem _ (ih z)

theorem foldl_closer_le (p : Pt) :
    ∀ (xs : List (ℕ × Pt)) (x y : ℕ × Pt), y ∈ x :: xs →
      sq_dist p (xs.foldl (closer p) x).2 ≤ sq_dist p y.2 := by
  intro xs
  induction xs with
  | nil =>
    intro x y hy
    rcases List.mem_cons.mp hy with h | h
    · rw [h]; exact le_refl _
    · cases h
  | cons z zs ih =>
    intro x y hy
    simp only [List.foldl_cons]
    rcases List.mem_cons.mp hy with h | h
    · rw [h]
      exact le_trans (ih (closer p x z) _ (List.mem_cons_self _ _))
        (closer_le_left p x z)
    · rcases List.mem_cons.mp h with h2 | h2
      · rw [h2]
        exact le_trans (ih (closer p x z) _ (List.mem_cons_self _ _))
          (closer_le_right p x z)
      · exact ih (closer p x z) y (List.mem_cons_of_mem _ h2)

theorem query_closest_spec (p : Pt) (avail : List (ℕ × Pt)) (h : avail ≠ []) :
    ∃ c, query_closest p avail = some c ∧ c ∈ avail ∧
      ∀ y ∈ avail, sq_dist p c.2 ≤ sq_dist p y.2 := by
  match avail with
  | [] => exact absurd rfl h
  | x :: xs =>
    exact ⟨xs.foldl (closer p) x, rfl, foldl_closer_mem p xs x,
      fun y hy => foldl_closer_le p xs x y hy⟩

-- bookkeeping for the pool of (index, point) pairs

theorem filter_ne_eq_self (i : ℕ) :
    ∀ l : List (ℕ × Pt), (∀ y ∈ l, y.1 ≠ i) →
      l.filter (fun x => x.1 ≠ i) = l := by
  intro l
  induction l with
  | nil => intro _; rfl
  | cons a as ih =>
    intro h
    have ha : a.1 ≠ i := h a (List.mem_cons_self _ _)
    rw [List.filter_cons, if_pos (by simpa using ha),
      ih (fun y hy => h y (List.mem_cons_of_mem _ hy))]

theorem length_filter_ne_of_mem :
    ∀ (l : List (ℕ × Pt)) (c : ℕ × Pt), c ∈ l → (l.map Prod.fst).Nodup →
      (l.filter (fun x => x.1 ≠ c.1)).length + 1 = l.length := by
  intro l
  induction l with
  | nil => intro c hc _; cases hc
  | cons a as ih =>
    intro c hc hnd
    rw [List.map_cons, List.nodup_cons] at hnd
    obtain ⟨ha, hnd'⟩ := hnd
    rw [List.filter_cons]
    rcases List.mem_cons.mp hc with h | h
    · subst h
      rw [if_neg (by simp)]
      have hkeys : ∀ y ∈ as, y.1 ≠ c.1 := by
        intro y hy heq
        exact ha (heq ▸ List.mem_map_of_mem Prod.fst hy)
      rw [filter_ne_eq_self c.1 as hkeys]
      rfl
    · have hane : a.1 ≠ c.1 := by
        intro heq
        exact ha (heq ▸ List.mem_map_of_mem Prod.fst h)
      rw [if_pos (by simpa using hane)]
      have := ih c h hnd'
      simp only [List.length_cons]
      omega

theorem keys_nodup_filter (i : ℕ) (l : List (ℕ × Pt))
    (h : (l.map Prod.fst).Nodup) :
    ((l.filter (fun x => x.1 ≠ i)).map Prod.fst).Nodup :=
  List.Nodup.sublist (List.Sublist.map Prod.fst (List.filter_sublist l)) h

theorem length_filter_ne_lt (l : List (ℕ × Pt)) (c : ℕ × Pt) (hc : c ∈ l) :
    (l.filter (fun x => x.1 ≠ c.1)).length < l.length := by
  induction l with
  | nil => cases hc
  | cons a as ih =>
    rw [List.filter_cons]
    rcases List.mem_cons.mp hc with h | h
    · subst h
      rw [if_neg (by simp)]
      have := List.length_filter_le (fun x => decide (x.1 ≠ c.1)) as
      simp only [List.length_cons]
      omega
    · split
      · simpa using ih h
      · have := List.length_filter_le (fun x => decide (x.1 ≠ c.1)) as
        simp only [List.length_cons]
        omega

-- existence and shape of the greedy run

theorem find_closest_aux_spec :
    ∀ (refs : List Pt) (avail : List (ℕ × Pt)),
      refs.length ≤ avail.length → (avail.map Prod.fst).Nodup →
      ∃ sel, find_closest_aux refs avail = some sel ∧
        GreedyMatch refs avail sel ∧ sel.length = refs.length := by
  intro refs
  induction refs with
  | nil => intro avail _ _; exact ⟨[], rfl, GreedyMatch.nil avail, rfl⟩
  | cons r rs ih =>
    intro avail hlen hnd
    have hne : avail ≠ [] := by
      intro he
      rw [he] at hlen
      simp at hlen
    obtain ⟨c, hq, hmem, hmin⟩ := query_closest_spec r avail hne
    have hlen' : rs.length ≤ (avail.filter (fun x => x.1 ≠ c.1)).length := by
      have := length_filter_ne_of_mem avail c hmem hnd
      simp only [List.length_cons] at hlen
      omega
    obtain ⟨sel, hs, hg, hl⟩ := ih _ hlen' (keys_nodup_filter c.1 avail hnd)
    refine ⟨c :: sel, ?_, GreedyMatch.cons r rs avail c sel hmem hmin hg,
      by simp [hl]⟩
    simp only [find_closest_aux, hq, hs]

theorem GreedyMatch.sel_subset :
    ∀ {refs : List Pt} {avail sel : List (ℕ × Pt)},
      GreedyMatch refs avail sel → ∀ x ∈ sel, x ∈ avail := by
  intro refs avail sel h
  induction h with
  | nil => intro x hx; cases hx
  | cons r rs avail c sel hmem hmin hrest ih =>
    intro x hx
    rcases List.mem_cons.mp hx with h1 | h1
    · rw [h1]; exact hmem
    · exact List.mem_of_mem_filter (ih x h1)

theorem GreedyMatch.keys_nodup :
    ∀ {refs : List Pt} {avail sel : List (ℕ × Pt)},
      GreedyMatch refs avail sel →
      (avail.map Prod.fst).Nodup → (sel.map Prod.fst).Nodup := by
  intro refs avail sel h
  induction h with
  | nil => intro _; exact List.nodup_nil
  | cons r rs avail c sel hmem hmin hrest ih =>
    intro hnd
    rw [List.map_cons, List.nodup_cons]
    refine ⟨?_, ih (keys_nodup_filter c.1 avail hnd)⟩
    intro hc1
    obtain ⟨y, hy, hyeq⟩ := List.mem_map.mp hc1
    have hyfil := hrest.sel_subset y hy
    have hne : y.1 ≠ c.1 := by
      have := (List.mem_filter.mp hyfil).2
      simpa using this
    exact hne hyeq

/-- C4: for every reference set `R` and candidate set `C` with
`len(C) ≥ len(R)`, `find_closest_regions` succeeds and returns exactly
`len(R)` points, each drawn from a distinct element of `C` (the selected
(index, point) pairs are elements of `C.enum` with pairwise-distinct
indices), and the selection is greedy: each output is a candidate nearest
in Euclidean distance to its reference point among the candidates not
consumed by the earlier outputs (`GreedyMatch`).  Determinism is inherent:
the embedding is a function of `(R, C)` alone. -/
theorem find_closest_regions_greedy_spec (R C : List Pt)
    (h : R.length ≤ C.length) :
    ∃ sel : List (ℕ × Pt),
      find_closest_aux R C.enum = some sel ∧
      find_closest_regions R C = some (sel.map Prod.snd) ∧
      (sel.map Prod.snd).length = R.length ∧
      (∀ x ∈ sel, x ∈ C.enum) ∧
      (sel.map Prod.fst).Nodup ∧
      GreedyMatch R C.enum sel := by
  have hnd : (C.enum.map Prod.fst).Nodup := by
    rw [List.enum_map_fst]; exact List.nodup_range _
  have hlen : R.length ≤ C.enum.length := by
    rw [List.enum_length]; exact h
  obtain ⟨sel, hs, hg, hl⟩ := find_closest_aux_spec R C.enum hlen hnd
  refine ⟨sel, hs, ?_, by simp [hl], hg.sel_subset, hg.keys_nodup hnd, hg⟩
  unfold find_closest_regions
  rw [hs]
  rfl

/-- Witness for `find_closest_regions_greedy_spec`:
`R = [[0,0]]`, `C = [[3,3],[1,1]]`. -/
theorem find_closest_regions_greedy_spec_witness :
    ([[0, 0]] : List Pt).length ≤ ([[3, 3], [1, 1]] : List Pt).length ∧
      ∃ sel : List (ℕ × Pt),
        find_closest_aux [[0, 0]] ([[3, 3], [1, 1]] : List Pt).enum =
            some sel ∧
        find_closest_regions [[0, 0]] [[3, 3], [1, 1]] =
            some (sel.map Prod.snd) ∧
        (sel.map Prod.snd).length = ([[0, 0]] : List Pt).length ∧
        (∀ x ∈ sel, x ∈ ([[3, 3], [1, 1]] : List Pt).enum) ∧
        (sel.map Prod.fst).Nodup ∧
        GreedyMatch [[0, 0]] ([[3, 3], [1, 1]] : List Pt).enum sel :=
  ⟨by decide, find_closest_regions_greedy_spec [[0, 0]] [[3, 3], [1, 1]]
    (by decide)⟩

-- the run fails as soon as the pool is exhausted

theorem find_closest_aux_none :
    ∀ (refs : List Pt) (avail : List (ℕ × Pt)),
      avail.length < refs.length → find_closest_aux refs avail = none := by
  intro refs
  induction refs with
  | nil => intro avail h; exact absurd h (Nat.not_lt_zero _)
  | cons r rs ih =>
    intro avail h
    match avail, h with
    | [], _ => rfl
    | a :: as, h =>
      obtain ⟨c, hq, hmem, _⟩ := query_closest_spec r (a :: as) (by simp)
      have hlt : ((a :: as).filter (fun x => x.1 ≠ c.1)).length < rs.length := by
        have := length_filter_ne_lt (a :: as) c hmem
        simp only [List.length_cons] at h this ⊢
        omega
      simp only [find_closest_aux, hq, ih _ hlt]

/-- C9: for every reference set `R` and candidate set `C` with
`len(C) < len(R)`, `find_closest_regions` fails (the candidate pool is
exhausted before all reference points are assigned; in the source this
surfaces as the exception `cKDTree` raises on an empty pool, modelled as
`none`) rather than returning a result. -/
theorem find_closest_regions_pool_exhausted (R C : List Pt)
    (h : C.length < R.length) :
    find_closest_regions R C = none := by
  unfold find_closest_regions
  rw [find_closest_aux_none R C.enum (by rw [List.enum_length]; exact h)]
  rfl

/-- Witness for `find_closest_regions_pool_exhausted`:
`R = [[0,0],[1,1]]`, `C = [[2,2]]`. -/
theorem find_closest_regions_pool_exhausted_witness :
    ([[2, 2]] : List Pt).length < ([[0, 0], [1, 1]] : List Pt).length ∧
      find_closest_regions [[0, 0], [1, 1]] [[2, 2]] = none :=
  ⟨by decide,
    find_closest_regions_pool_exhausted [[0, 0], [1, 1]] [[2, 2]] (by decide)⟩

/-! ## `find_transform` (src/image_processing.py lines 196-224)

```python
def find_transform(points_1, points_2):
    center_of_mass_1 = np.mean(points_1, axis=0)
    center_of_mass_2 = np.mean(points_2, axis=0)
    centered_points_1 = points_1 - center_of_mass_1
    centered_points_2 = points_2 - center_of_mass_2
    norm_1 = np.linalg.norm(centered_points_1)
    norm_2 = np.linalg.norm(centered_points_2)
    scaling_factor = norm_2 / norm_1
    scaled_1 = centered_points_1 * scaling_factor
    result = minimize(calculate_rmse_after_rotation, 0,
                      args=(scaled_1, centered_points_2), method="L-BFGS-B")
    if not result.success:
        raise ValueError("Optimization failed: " + result.message)
    angle = result.x[0]
    return center_of_mass_1, center_of_mass_2, scaling_factor, angle
```

The points here are 2-D, so they are embedded as pairs.  `np.linalg.norm`
is the Frobenius norm `sqrt(Σ coords²)`; the square root is irrational, so
the embedding carries the SQUARE of the scaling factor:
`scale² = ‖centered_2‖² / ‖centered_1‖²`, which determines the positive
scale uniquely and has the same zero-denominator behaviour.  numpy float
division by a zero norm does not raise — it silently produces a non-finite
value (`inf`, or `nan` for `0/0`) and only emits a RuntimeWarning; the
non-finite result is modelled as `none`.  scipy's `minimize` is an
external routine; its outcome (the `result` object the repository's code
branches on) is the oracle parameter `MinimizeResult`, and `result.x[0]`
is the field `x`.

The free-oracle model of the `minimize` call is adequate only when the
objective's inputs are finite: there the call returns a `result` object
and the code branches on `result.success`.  When `scaled_1` contains
non-finite entries — exactly the zero-norm case — the very first
objective evaluation inside `minimize` calls sklearn's
`mean_squared_error`, whose input validation raises before any `result`
exists, and that exception propagates out of `find_transform`.
`find_transform_validated` below refines the embedding with this
validation and is the authority for degenerate inputs; the bridging lemma
`find_transform_validated_agrees` shows the two coincide on ordinary
(finite, nonempty, consistently sized) inputs. -/

/-- Outcome of the external `scipy.optimize.minimize` call. -/
structure MinimizeResult where
  success : Bool
  message : String
  x : ℚ
deriving DecidableEq, Repr

/-- `np.mean(points, axis=0)` on a list of 2-D points. -/
def mean2 (points : List (ℚ × ℚ)) : ℚ × ℚ :=
  ((points.map Prod.fst).sum / points.length,
   (points.map Prod.snd).sum / points.length)

/-- Squared Frobenius norm of a list of 2-D points, `‖·‖²`. -/
def norm_sq (points : List (ℚ × ℚ)) : ℚ :=
  (points.map (fun p => p.1 ^ 2 + p.2 ^ 2)).sum

/-- `points - center`: subtract a centroid from every point. -/
def center_points (points : List (ℚ × ℚ)) (c : ℚ × ℚ) : List (ℚ × ℚ) :=
  points.map (fun p => (p.1 - c.1, p.2 - c.2))

/-- `find_transform`, parametrized by the minimizer outcome.  The returned
scale component is the squared scaling factor, `none` when the division
`norm_2 / norm_1` hits a zero `norm_1` and numpy silently yields a
non-finite float.  This free-oracle form is faithful on inputs whose
`scaled_1` is finite (see the section comment); `find_transform_validated`
below is the refinement covering the degenerate inputs. -/
def find_transform (res : MinimizeResult) (points_1 points_2 : List (ℚ × ℚ)) :
    Except PyErr ((ℚ × ℚ) × (ℚ × ℚ) × Option ℚ × ℚ) :=
  let center_of_mass_1 := mean2 points_1
  let center_of_mass_2 := mean2 points_2
  let centered_points_1 := center_points points_1 center_of_mass_1
  let centered_points_2 := center_points points_2 center_of_mass_2
  let norm_sq_1 := norm_sq centered_points_1
  let norm_sq_2 := norm_sq centered_points_2
  let scaling_factor_sq : Option ℚ :=
    if norm_sq_1 = 0 then none else some (norm_sq_2 / norm_sq_1)
  if res.success then
    Except.ok (center_of_mass_1, center_of_mass_2, scaling_factor_sq, res.x)
  else
    Except.error (PyErr.valueError ("Optimization failed: " ++ res.message))

/-- The straight-line prefix of `find_transform` before the `minimize`
call (lines 207-217): no conditional, no raise.  Its result of interest is
the scaling factor (as its square): `none` — the non-finite float — on a
zero-norm centered reference set, computed by the unconditional
division. -/
def find_transform_scaling (points_1 points_2 : List (ℚ × ℚ)) : Option ℚ :=
  let norm_sq_1 := norm_sq (center_points points_1 (mean2 points_1))
  let norm_sq_2 := norm_sq (center_points points_2 (mean2 points_2))
  if norm_sq_1 = 0 then none else some (norm_sq_2 / norm_sq_1)

/-- `find_transform`, refined with the input validation that runs inside
the `minimize` call.  `minimize` evaluates the objective
`calculate_rmse_after_rotation(0, scaled_1, centered_points_2)` at its
starting point before any `result` exists; the objective calls sklearn's
`mean_squared_error(scaled_1, rotated)`, whose `_check_reg_targets`
validation raises, in order:
(1) `check_consistent_length` — mismatched sample counts;
(2) `check_array(y_true)` — `scaled_1` has a non-finite entry.  This
happens exactly when `norm_1 = 0` and `points_1` is nonempty: every entry
of the then all-zero `centered_points_1` times the non-finite
`scaling_factor` is `0 * inf/nan = NaN`; when `norm_1 ≠ 0` the scale and
all scaled entries are finite exact rationals, and `rotated` (the finite
`centered_points_2` times a rotation) is always finite;
(3) `check_array` on an empty array — zero samples.
Such an exception propagates out of `minimize`, so `find_transform`
raises it and the `MinimizeResult` oracle is never consulted; on finite,
nonempty, consistently sized inputs the behaviour is that of
`find_transform`. -/
def find_transform_validated (res : MinimizeResult)
    (points_1 points_2 : List (ℚ × ℚ)) :
    Except PyErr ((ℚ × ℚ) × (ℚ × ℚ) × Option ℚ × ℚ) :=
  let center_of_mass_1 := mean2 points_1
  let center_of_mass_2 := mean2 points_2
  let centered_points_1 := center_points points_1 center_of_mass_1
  let norm_sq_1 := norm_sq centered_points_1
  let scaling_factor_sq := find_transform_scaling points_1 points_2
  if points_1.length ≠ points_2.length then
    Except.error PyErr.sklearnInconsistentSamples
  else if points_1 = [] then
    Except.error PyErr.sklearnZeroSamples
  else if norm_sq_1 = 0 then
    Except.error PyErr.sklearnNonFiniteInput
  else if res.success then
    Except.ok (center_of_mass_1, center_of_mass_2, scaling_factor_sq, res.x)
  else
    Except.error (PyErr.valueError ("Optimization failed: " ++ res.message))

-- on ordinary inputs the refinement coincides with the free-oracle model

theorem find_transform_validated_agrees (res : MinimizeResult)
    (points_1 points_2 : List (ℚ × ℚ))
    (hlen : points_1.length = points_2.length) (hne : points_1 ≠ [])
    (h : norm_sq (center_points points_1 (mean2 points_1)) ≠ 0) :
    find_transform_validated res points_1 points_2 =
      find_transform res points_1 points_2 := by
  simp [find_transform_validated, find_transform, find_transform_scaling,
    hlen, hne, h]

/-- C3 (counterexample): on the degenerate reference set `[(1,2),(1,2)]`
(all points coincident, zero-norm after centering), `find_transform` does
not fail explicitly at the division: the straight-line prefix performs the
division by zero silently and completes with the non-finite scale
(`find_transform_scaling … = none`, first conjunct), and the error that
then surfaces — for a successful and for a failed minimizer outcome alike,
since the oracle is never consulted — is sklearn's NaN-validation
`ValueError` raised inside the `minimize` call, not an explicit
degenerate-input error of the estimator (whose only explicit raise is the
optimization-failure one). -/
theorem find_transform_zero_norm_counterexample :
    find_transform_scaling [(1, 2), (1, 2)] [(0, 0), (2, 2)] = none ∧
      find_transform_validated ⟨true, "", 0⟩ [(1, 2), (1, 2)]
          [(0, 0), (2, 2)] =
        Except.error PyErr.sklearnNonFiniteInput ∧
      find_transform_validated ⟨false, "NO_CONVERGENCE", 0⟩ [(1, 2), (1, 2)]
          [(0, 0), (2, 2)] =
        Except.error PyErr.sklearnNonFiniteInput ∧
      PyErr.sklearnNonFiniteInput ≠
        PyErr.valueError ("Optimization failed: " ++ "NO_CONVERGENCE") := by
  refine ⟨?_, ?_, ?_, by simp⟩
  · unfold find_transform_scaling
    norm_num [mean2, norm_sq, center_points]
  · unfold find_transform_validated find_transform_scaling
    norm_num [mean2, norm_sq, center_points]
    intro hcontra
    simp at hcontra
  · unfold find_transform_validated find_transform_scaling
    norm_num [mean2, norm_sq, center_points]
    intro hcontra
    simp at hcontra

/-- C3 (amended): when the centered reference set has zero norm (a
nonempty input: a single point or all points coincident), `find_transform`
does fail with an error and never returns a degenerate scale — but not
explicitly at the division: the division by zero is silently performed
(the straight-line prefix completes, yielding the non-finite scale,
modelled `none`), the all-zero centered reference set scaled by it becomes
all-NaN, and the failure surfaces as sklearn's NaN-validation `ValueError`
raised inside the `minimize` call — downstream NaN validation, not an
explicit degenerate-input check. -/
theorem find_transform_zero_norm_raises_downstream (res : MinimizeResult)
    (points_1 points_2 : List (ℚ × ℚ)) (hne : points_1 ≠ [])
    (hlen : points_1.length = points_2.length)
    (h : norm_sq (center_points points_1 (mean2 points_1)) = 0) :
    find_transform_scaling points_1 points_2 = none ∧
      find_transform_validated res points_1 points_2 =
        Except.error PyErr.sklearnNonFiniteInput := by
  constructor
  · unfold find_transform_scaling
    rw [if_pos h]
  · simp [find_transform_validated, hlen, hne, h]

/-- Witness for `find_transform_zero_norm_raises_downstream` at a concrete
input. -/
theorem find_transform_zero_norm_raises_downstream_witness :
    ([(1, 2), (1, 2)] : List (ℚ × ℚ)) ≠ [] ∧
      ([(1, 2), (1, 2)] : List (ℚ × ℚ)).length =
        ([(0, 0), (2, 2)] : List (ℚ × ℚ)).length ∧
      norm_sq (center_points [(1, 2), (1, 2)] (mean2 [(1, 2), (1, 2)])) = 0 ∧
      (find_transform_scaling [(1, 2), (1, 2)] [(0, 0), (2, 2)] = none ∧
        find_transform_validated ⟨false, "ABNORMAL_TERMINATION_IN_LNSRCH", 0⟩
            [(1, 2), (1, 2)] [(0, 0), (2, 2)] =
          Except.error PyErr.sklearnNonFiniteInput) :=
  ⟨by simp, by simp, by norm_num [mean2, norm_sq, center_points],
    find_transform_zero_norm_raises_downstream
      ⟨false, "ABNORMAL_TERMINATION_IN_LNSRCH", 0⟩ [(1, 2), (1, 2)]
      [(0, 0), (2, 2)] (by simp) (by simp)
      (by norm_num [mean2, norm_sq, center_points])⟩

/-- C8: whenever the numerical minimizer reports failure
(`result.success = False`), `find_transform` raises the explicit
`ValueError` carrying the minimizer's diagnostic message
(`"Optimization failed: " + result.message`) and never returns a
transform. -/
theorem find_transform_raises_on_nonconvergence (res : MinimizeResult)
    (points_1 points_2 : List (ℚ × ℚ)) (h : res.success = false) :
    find_transform res points_1 points_2 =
      Except.error
        (PyErr.valueError ("Optimization failed: " ++ res.message)) := by
  unfold find_transform
  rw [h]
  rfl

/-- Witness for `find_transform_raises_on_nonconvergence`. -/
theorem find_transform_raises_on_nonconvergence_witness :
    find_transform ⟨false, "NO_CONVERGENCE", 0⟩ [(0, 0), (1, 1)]
        [(0, 0), (2, 2)] =
      Except.error
        (PyErr.valueError ("Optimization failed: " ++ "NO_CONVERGENCE")) :=
  find_transform_raises_on_nonconvergence ⟨false, "NO_CONVERGENCE", 0⟩
    [(0, 0), (1, 1)] [(0, 0), (2, 2)] rfl

/-! ## `create_rotation_matrix` (lines 162-178) and `transform_coordinates`
(lines 226-246)

```python
def create_rotation_matrix(angle):
    if isinstance(angle, (list, np.ndarray)) and len(angle) == 1:
        angle = angle[0]
    c, s = np.cos(angle), np.sin(angle)
    rotation_matrix = np.array([[c, -s], [s, c]])
    return rotation_matrix

def transform_coordinates(points_1, center_1, center_2, scaling_factor, angle):
    coordinates_centered = points_1 - center_1
    coordinates_scaled = coordinates_centered * scaling_factor
    rotation_matrix = create_rotation_matrix(-angle)
    coordinates_rotated = np.dot(coordinates_scaled, rotation_matrix.T)
    coordinates_transformed = coordinates_rotated + center_2
    return coordinates_transformed
```

`np.cos` / `np.sin` are transcendental, so the embedding is parametrized by
the exact pair `(cos_a, sin_a)` of cosine and sine of the angle argument;
the only fact the code's algebra relies on is the Pythagorean identity
`cos_a² + sin_a² = 1`, carried as a hypothesis where needed, plus the
parity identities `cos(−a) = cos(a)`, `sin(−a) = −sin(a)`, which the
embedding applies when the source negates an angle.  The
single-element-array shim at the top of `create_rotation_matrix` only
extracts a scalar and has no arithmetic content.  `np.dot(rows, m.T)`
applies the matrix to each row. -/

/-- `create_rotation_matrix`: `[[c, -s], [s, c]]` from the cosine and sine
of the angle. -/
def create_rotation_matrix (c s : ℚ) : (ℚ × ℚ) × (ℚ × ℚ) :=
  ((c, -s), (s, c))

/-- One row of `np.dot(coordinates, rotation_matrix.T)`: the matrix applied
to the point. -/
def mat_apply (m : (ℚ × ℚ) × (ℚ × ℚ)) (p : ℚ × ℚ) : ℚ × ℚ :=
  (m.1.1 * p.1 + m.1.2 * p.2, m.2.1 * p.1 + m.2.2 * p.2)

/-- `transform_coordinates`, with the angle given by its cosine and sine
`(cos_a, sin_a)`: the source builds `create_rotation_matrix(-angle)`, whose
cosine is `cos_a` and whose sine is `-sin_a`. -/
def transform_coordinates (points_1 : List (ℚ × ℚ)) (center_1 center_2 : ℚ × ℚ)
    (scaling_factor : ℚ) (cos_a sin_a : ℚ) : List (ℚ × ℚ) :=
  points_1.map (fun p =>
    let coordinates_centered := (p.1 - center_1.1, p.2 - center_1.2)
    let coordinates_scaled :=
      (coordinates_centered.1 * scaling_factor,
       coordinates_centered.2 * scaling_factor)
    let rotation_matrix := create_rotation_matrix cos_a (-sin_a)
    let coordinates_rotated := mat_apply rotation_matrix coordinates_scaled
    (coordinates_rotated.1 + center_2.1, coordinates_rotated.2 + center_2.2))

/-- C6: for every point set, centers `c1`, `c2`, nonzero scale `s` and
angle `θ` (given by its exact cosine and sine, satisfying the Pythagorean
identity), applying `transform_coordinates` with `(c1, c2, s, θ)` and then
again with `(c2, c1, 1/s, −θ)` (cosine `cos_t`, sine `−sin_t`) recovers the
original points exactly in exact arithmetic. -/
theorem transform_coordinates_round_trip (points_a : List (ℚ × ℚ))
    (c1 c2 : ℚ × ℚ) (s cos_t sin_t : ℚ) (hs : s ≠ 0)
    (hpyth : cos_t ^ 2 + sin_t ^ 2 = 1) :
    transform_coordinates
        (transform_coordinates points_a c1 c2 s cos_t sin_t)
        c2 c1 s⁻¹ cos_t (-sin_t) = points_a := by
  unfold transform_coordinates create_rotation_matrix mat_apply
  rw [List.map_map]
  conv_rhs => rw [← List.map_id points_a]
  apply List.map_congr_left
  intro p _
  obtain ⟨p1, p2⟩ := p
  simp only [Function.comp_apply, id_eq, Prod.mk.injEq]
  constructor
  · field_simp
    ring_nf
    linear_combination (s * (p1 - c1.1)) * hpyth
  · field_simp
    ring_nf
    linear_combination (s * (p2 - c1.2)) * hpyth

/-- Witness for `transform_coordinates_round_trip` at a concrete input. -/
theorem transform_coordinates_round_trip_witness :
    (2 : ℚ) ≠ 0 ∧ (3 / 5 : ℚ) ^ 2 + (4 / 5 : ℚ) ^ 2 = 1 ∧
      transform_coordinates
          (transform_coordinates [(1, 2), (3, 4)] (1, 1) (5, 0) 2 (3 / 5)
            (4 / 5))
          (5, 0) (1, 1) (2 : ℚ)⁻¹ (3 / 5) (-(4 / 5)) = [(1, 2), (3, 4)] :=
  ⟨by norm_num, by norm_num,
    transform_coordinates_round_trip [(1, 2), (3, 4)] (1, 1) (5, 0) 2 (3 / 5)
      (4 / 5) (by norm_num) (by norm_num)⟩

/-! ## `binary_kernel` (lines 69-85), `get_largest_regions_by_area`
(lines 87-100) and `locate_blobs` (lines 102-135)

```python
def binary_kernel(operator_size, dim=2):
    if dim == 2:
        return disk(operator_size)
    elif dim == 3:
        return ball(operator_size)
    else:
        return None

def get_largest_regions_by_area(labels, num_regions=1):
    regions = regionprops(labels)
    sorted_regions = sorted(regions, key=lambda x: x.area, reverse=True)
    return sorted_regions[:num_regions]

def locate_blobs(image, number_of_blobs, source=1):
    threshold = threshold_otsu(image)
    binary_image = image > threshold
    if source == 0:
        binary_image = dilation(binary_image,
                                binary_kernel(DILATION_KERNEL_SIZE, dim=image.ndim))
    else:
        pass
    (then three statements, sic: ) import napari ; napari.view_image(
        binary_image) ; napari.run()
    labels = label(binary_image)
    regions = get_largest_regions_by_area(labels, number_of_blobs)
    centroids = np.array([region.centroid for region in regions])
    avg_major_axis_length = np.mean([region.major_axis_length for region in regions])
    return centroids, avg_major_axis_length
```

The skimage structuring elements `disk`/`ball` are opaque library values,
kept as constructors of `Kernel`.  `binary_kernel`'s body is pure
branching with plain returns — it cannot raise, so it is embedded as a
total function into `Option Kernel`, with `none` for Python's `None`.
The external image routines (`threshold_otsu`, `dilation`, `label`,
`regionprops`) are oracle fields of `SkimageLib`; image data is a
flattened intensity list plus its `ndim`; `sorted(..., reverse=True)` is
a stable descending sort.  The three napari statements (the inline
module import, `napari.view_image(binary_image)`, `napari.run()`) open an
interactive viewer window and block in the UI event loop until the user
closes it; these observable actions are recorded in the `Effect` trace
component of the embedding's result. -/

-- config.py constants
def MEDIAN_KERNEL_SIZE : ℕ := 3
def OPENING_KERNEL_SIZE : ℕ := 3
def DILATION_KERNEL_SIZE : ℕ := 10

/-- A skimage structuring element. -/
inductive Kernel where
  | disk (radius : ℕ)
  | ball (radius : ℕ)
deriving DecidableEq, Repr

/-- `binary_kernel`: a disk for `dim == 2`, a ball for `dim == 3`, and the
plain value `None` otherwise — the body has no raise statement. -/
def binary_kernel (operator_size : ℕ) (dim : ℕ) : Option Kernel :=
  if dim = 2 then some (Kernel.disk operator_size)
  else if dim = 3 then some (Kernel.ball operator_size)
  else none

/-- C5 (counterexample): called with a structuring-element dimension of 4
(neither 2 nor 3), `binary_kernel` returns the null kernel `None` as an
ordinary value — the claimed hard error is never raised (the embedded
function is total because the source body contains no raise), and the
caller proceeds with a substitute/null kernel. -/
theorem binary_kernel_dim_mismatch_counterexample :
    binary_kernel 2 4 = none := rfl

/-- C5 (amended): for every size and every dimension argument other than
2 and 3, `binary_kernel` returns `None` (a null kernel) as a normal value
instead of raising an error; downstream morphology then receives
`footprint=None` rather than an explicit failure. -/
theorem binary_kernel_none_on_dim_mismatch (operator_size dim : ℕ)
    (h2 : dim ≠ 2) (h3 : dim ≠ 3) :
    binary_kernel operator_size dim = none := by
  unfold binary_kernel
  rw [if_neg h2, if_neg h3]

/-- Witness for `binary_kernel_none_on_dim_mismatch`. -/
theorem binary_kernel_none_on_dim_mismatch_witness :
    (4 : ℕ) ≠ 2 ∧ (4 : ℕ) ≠ 3 ∧ binary_kernel 10 4 = none :=
  ⟨by decide, by decide,
    binary_kernel_none_on_dim_mismatch 10 4 (by decide) (by decide)⟩

/-- An image or volume: flattened intensity data plus its rank. -/
structure Image where
  data : List ℚ
  ndim : ℕ

/-- A connected component as reported by `skimage.measure.regionprops`. -/
structure Region where
  centroid : List ℚ
  area : ℚ
  major_axis_length : ℚ

/-- Oracles for the external skimage routines `locate_blobs` calls. -/
structure SkimageLib where
  threshold_otsu : Image → ℚ
  dilation : List Bool → Option Kernel → List Bool
  label : List Bool → List ℕ
  regionprops : List ℕ → List Region

/-- Observable actions `locate_blobs` performs besides computing its
result. -/
inductive Effect where
  | napariViewImage
  | napariRun
deriving DecidableEq, Repr

/-- `np.mean` of a list of scalars. -/
def list_mean (xs : List ℚ) : ℚ := xs.sum / xs.length

/-- `get_largest_regions_by_area`: stable sort by area descending, take the
first `num_regions`. -/
def get_largest_regions_by_area (regions : List Region) (num_regions : ℕ) :
    List Region :=
  (regions.mergeSort (fun a b => decide (b.area ≤ a.area))).take num_regions

/-- `locate_blobs`, returning the effect trace alongside the value.  The
binarization `image > threshold` is pointwise; the `source == 0` branch
dilates with `binary_kernel(DILATION_KERNEL_SIZE, dim=image.ndim)`; the
napari viewer lines run unconditionally between the morphology and the
labelling. -/
def locate_blobs (lib : SkimageLib) (image : Image) (number_of_blobs : ℕ)
    (source : ℤ) : List Effect × (List (List ℚ) × ℚ) :=
  let threshold := lib.threshold_otsu image
  let binary_image := image.data.map (fun v => decide (threshold < v))
  let binary_image :=
    if source = 0 then
      lib.dilation binary_image (binary_kernel DILATION_KERNEL_SIZE image.ndim)
    else binary_image
  let labels := lib.label binary_image
  let regions :=
    get_largest_regions_by_area (lib.regionprops labels) number_of_blobs
  let centroids := regions.map (fun r => r.centroid)
  let avg_major_axis_length :=
    list_mean (regions.map (fun r => r.major_axis_length))
  ([Effect.napariViewImage, Effect.napariRun],
   (centroids, avg_major_axis_length))

/-- C1 (code evidence): for every library behaviour, every image, every
requested blob count and every `source` mode, `locate_blobs` performs the
napari effects — it opens a viewer window and blocks in `napari.run()`
until the user closes it — so it is not a side-effect-free pure function
that performs no action beyond computing and returning its result, and it
does block on user interaction. -/
theorem locate_blobs_blocks_on_ui (lib : SkimageLib) (image : Image)
    (number_of_blobs : ℕ) (source : ℤ) :
    (locate_blobs lib image number_of_blobs source).1 =
        [Effect.napariViewImage, Effect.napariRun] ∧
      Effect.napariRun ∈ (locate_blobs lib image number_of_blobs source).1 := by
  refine ⟨rfl, ?_⟩
  unfold locate_blobs
  exact List.mem_cons_of_mem _ (List.mem_cons_self _ _)
